import Mathlib

/-!
Verification development for the waveform player component
(`src/components/waveform-player.tsx`).

The component decodes a base64 audio payload, draws a static amplitude
bar chart on a canvas, and while playing redraws the same bars each
animation frame with progress coloring and a playhead, tracking elapsed
time against the audio-context clock.

The embedding below translates the component's pure drawing arithmetic
(bar geometry, peak extraction, progress, time formatting) into functions
over `ℚ`, the promise chain of the decode effect into an explicit
`Promise` type, and the stateful transport (startPlayback, stopPlayback,
drawLiveWaveform, the source's ended handler) into a step function over
an explicit `PlayerState`, driven by events (play command, stop command,
animation frame at a clock instant, natural end of the source, delivery
of the queued ended event).
-/

namespace WaveformPlayer

/-- Amplitudes of channel 0 of the decoded buffer (`buffer.getChannelData(0)`). -/
abbrev ChannelData := List ℚ

/-- Source constant: `const barWidth = 2` (identical in `drawStaticWaveform`
and `drawLiveWaveform`). -/
def barWidth : ℚ := 2

/-- Source constant: `const gap = 1.5`. -/
def gap : ℚ := 3 / 2

/-- Source: `const totalBarWidth = barWidth + gap`. -/
def totalBarWidth : ℚ := barWidth + gap

/-- Source: `const barCount = Math.floor(width / totalBarWidth)`; the loop
`for (let i = 0; i < barCount; i++)` runs `max 0 barCount` times, hence `toNat`. -/
def barCount (width : ℚ) : ℕ := (⌊width / totalBarWidth⌋).toNat

/-- Source: `Math.floor((i / barCount) * data.length)`, the start index of
bar `i`'s sample range (the same expression at `i + 1` is the end index). -/
def rangeStart (width : ℚ) (n : ℕ) (i : ℕ) : ℕ :=
  (⌊((i : ℚ) / (barCount width : ℚ)) * (n : ℚ)⌋).toNat

/-- Source peak loop over the half-open index range `[s, e)`:
`let max = 0; for (let j = start; j < end; j++) { const abs = Math.abs(data[j]); if (abs > max) max = abs; }`. -/
def maxAbsRange (data : ChannelData) (s e : ℕ) : ℚ :=
  (List.range' s (e - s)).foldl
    (fun m j => if |data.getD j 0| > m then |data.getD j 0| else m) 0

/-- Geometry of one rounded-rectangle bar as passed to `ctx.roundRect(x, y, barWidth, barHeight, 1)`. -/
structure Bar where
  x : ℚ
  y : ℚ
  w : ℚ
  h : ℚ
  deriving DecidableEq

/-- One drawn bar together with the fill style set before `ctx.fill()`. -/
structure ColoredBar where
  bar : Bar
  color : String
  deriving DecidableEq

/-- Source fill style of unplayed bars: `"oklch(0.708 0 0 / 0.3)"`. -/
def neutralColor : String := "oklch(0.708 0 0 / 0.3)"

/-- Source fill style of played bars and the playhead: `"oklch(0.59 0.26 323)"`. -/
def playedColor : String := "oklch(0.59 0.26 323)"

/-- One loop iteration of `drawStaticWaveform`: peak over the bar's sample
range, `barHeight = Math.max(2, max * height * 0.8)`, `x = i * totalBarWidth`,
`y = (height - barHeight) / 2`. -/
def staticBar (data : ChannelData) (width height : ℚ) (i : ℕ) : Bar :=
  let s := rangeStart width data.length i
  let e := rangeStart width data.length (i + 1)
  let mx := maxAbsRange data s e
  let barHeight := max 2 (mx * height * (4 / 5))
  { x := (i : ℚ) * totalBarWidth, y := (height - barHeight) / 2,
    w := barWidth, h := barHeight }

/-- The full static draw: `barCount` bars, all in the neutral color. -/
def drawStaticWaveform (data : ChannelData) (width height : ℚ) : List ColoredBar :=
  (List.range (barCount width)).map
    (fun i => { bar := staticBar data width height i, color := neutralColor })

/-- Source: `const progress = duration > 0 ? elapsed / duration : 0`. -/
def progressOf (duration elapsed : ℚ) : ℚ :=
  if duration > 0 then elapsed / duration else 0

/-- Geometry part of one loop iteration of `drawLiveWaveform` (the source
repeats the static computation verbatim at lines 200-210). -/
def liveBarGeom (data : ChannelData) (width height : ℚ) (i : ℕ) : Bar :=
  let s := rangeStart width data.length i
  let e := rangeStart width data.length (i + 1)
  let mx := maxAbsRange data s e
  let barHeight := max 2 (mx * height * (4 / 5))
  { x := (i : ℚ) * totalBarWidth, y := (height - barHeight) / 2,
    w := barWidth, h := barHeight }

/-- One live bar: geometry as above, colored by
`const barProgress = i / barCount; if (barProgress <= progress) ...`. -/
def liveColoredBar (data : ChannelData) (width height p : ℚ) (i : ℕ) : ColoredBar :=
  { bar := liveBarGeom data width height i,
    color := if ((i : ℚ) / (barCount width : ℚ)) ≤ p then playedColor else neutralColor }

/-- The bar pass of the live draw for a given duration and elapsed time. -/
def liveBars (data : ChannelData) (width height duration elapsed : ℚ) : List ColoredBar :=
  (List.range (barCount width)).map
    (liveColoredBar data width height (progressOf duration elapsed))

/-- Source playhead: `ctx.roundRect(playheadX - 1, 0, 2, height, 1)` with
`playheadX = progress * width`. -/
def playheadBar (width height p : ℚ) : Bar :=
  { x := p * width - 1, y := 0, w := 2, h := height }

/-- Truncation toward zero, the semantics of the quotient implicit in the
JavaScript `%` operator on numbers. -/
def jsTrunc (q : ℚ) : ℤ := if 0 ≤ q then ⌊q⌋ else ⌈q⌉

/-- JavaScript remainder `a % b`: `a - b * trunc(a / b)`. -/
def jsRem (a b : ℚ) : ℚ := a - b * (jsTrunc (a / b) : ℚ)

/-- JavaScript `String.prototype.padStart(n, c)` for a single pad character. -/
def padStart (s : String) (n : ℕ) (c : Char) : String :=
  String.mk (List.replicate (n - s.length) c) ++ s

/-- Source `formatTime`: `m = Math.floor(seconds / 60)`,
`s = Math.floor(seconds % 60)`, rendered as `m + ":" + pad2(s)`. -/
def formatTime (seconds : ℚ) : String :=
  let m := ⌊seconds / 60⌋
  let s := ⌊jsRem seconds 60⌋
  toString m ++ ":" ++ padStart (toString s) 2 '0'

/-- Failure of `ctx.decodeAudioData` on a payload that is not valid encoded
audio (including the empty payload). -/
inductive DecodeError where
  | invalidData
  deriving DecidableEq

/-- Settled state of a JavaScript promise whose rejections carry decode errors. -/
inductive Promise (α : Type) where
  | fulfilled : α → Promise α
  | rejected : DecodeError → Promise α
  deriving DecidableEq

/-- Promise `.then(onFulfilled)` with no rejection handler attached:
a rejection passes through to the derived promise unhandled. -/
def Promise.andThen {α β : Type} (p : Promise α) (f : α → β) : Promise β :=
  match p with
  | .fulfilled a => .fulfilled (f a)
  | .rejected e => .rejected e

/-- Decoded audio buffer: channel data plus duration in seconds. -/
structure PCMBuffer where
  channel0 : ChannelData
  duration : ℚ
  deriving DecidableEq

/-- Component state written by the decode fulfillment handler. -/
structure DecodeState where
  audioBuffer : Option PCMBuffer
  durationState : ℚ
  staticDrawn : Bool
  deriving DecidableEq

/-- Body of the fulfillment handler at lines 47-51: store the buffer, set
the duration state, draw the static waveform. -/
def handleDecoded (buffer : PCMBuffer) : DecodeState :=
  { audioBuffer := some buffer, durationState := buffer.duration, staticDrawn := true }

/-- The decode effect: `ctx.decodeAudioData(byteArray.buffer).then((buffer) => ...)`.
The source chains only a fulfillment handler; no `.catch` is attached to the
resulting promise anywhere in the component. -/
def decodeEffect (res : Promise PCMBuffer) : Promise DecodeState :=
  res.andThen handleDecoded

/-- The rejection, if any, left unhandled on a settled promise to which no
rejection handler was attached. -/
def unhandledRejection {α : Type} : Promise α → Option DecodeError
  | .rejected e => some e
  | _ => none

/-- Mutable state of one mounted player: the refs, React state and counters
that the transport functions read and write.  `sourceLive` is true while the
underlying buffer source node is still playing; `endedPending` counts queued
`ended` events not yet delivered; `playingProp` is the external `isPlaying`
boolean; `liveDraws`/`staticDraws` count completed canvas draw passes. -/
structure PlayerState where
  canvasSet : Bool
  ctxSet : Bool
  bufferSet : Bool
  analyserSet : Bool
  sourceRefSet : Bool
  sourceLive : Bool
  handlerRegistered : Bool
  endedPending : ℕ
  animScheduled : Bool
  playingProp : Bool
  startTime : ℚ
  currentTime : ℚ
  duration : ℚ
  endedCalls : ℕ
  liveDraws : ℕ
  staticDraws : ℕ
  deriving DecidableEq

/-- Per-frame callback `drawLiveWaveform`, invoked at audio-clock instant `t`:
after the early return `if (!canvas || !analyser || !ctx) return;` it sets
`currentTime` to `ctx.currentTime - startTimeRef.current` (no clamping),
performs a full draw pass, and unconditionally calls
`requestAnimationFrame(drawLiveWaveform)`. -/
def drawLiveWaveform (t : ℚ) (S : PlayerState) : PlayerState :=
  if S.canvasSet && S.analyserSet && S.ctxSet then
    { S with currentTime := t - S.startTime,
             liveDraws := S.liveDraws + 1,
             animScheduled := true }
  else S

/-- Source `startPlayback` at clock instant `t`: guarded by
`if (!ctx || !buffer) return;`, it creates the analyser and source node,
registers the `onended` handler, records `startTimeRef.current = ctx.currentTime`,
starts the source and synchronously calls `drawLiveWaveform()`. -/
def startPlayback (t : ℚ) (S : PlayerState) : PlayerState :=
  if S.ctxSet && S.bufferSet then
    drawLiveWaveform t
      { S with analyserSet := true, sourceRefSet := true, sourceLive := true,
               handlerRegistered := true, startTime := t }
  else S

/-- Error thrown by the platform out of `AudioBufferSourceNode.stop()` when
the node is no longer playing; the source's catch comments it `// already stopped`. -/
inductive JSError where
  | invalidState
  deriving DecidableEq

/-- Platform call `sourceRef.current.stop()`: halting a still-playing node
succeeds and queues its `ended` event; on a node that already finished it
throws (the error the source swallows). -/
def sourceNodeStop (S : PlayerState) : Except JSError PlayerState :=
  if S.sourceLive then
    Except.ok { S with sourceLive := false, endedPending := S.endedPending + 1 }
  else Except.error JSError.invalidState

/-- Source `stopPlayback`: `cancelAnimationFrame(animationRef.current)`, then
`if (sourceRef.current) { try { sourceRef.current.stop(); } catch { } sourceRef.current = null; }`,
then redraw the static waveform if a buffer is present.  The only fallible
call is wrapped in the try/catch, so the function never propagates an error. -/
def stopPlayback (S : PlayerState) : Except JSError PlayerState :=
  let S1 : PlayerState := { S with animScheduled := false }
  let S2 : PlayerState :=
    if S1.sourceRefSet then
      let S3 : PlayerState :=
        match sourceNodeStop S1 with
        | Except.ok s => s
        | Except.error _ => S1
      { S3 with sourceRefSet := false }
    else S1
  let S4 : PlayerState :=
    if S2.bufferSet then { S2 with staticDraws := S2.staticDraws + 1 } else S2
  Except.ok S4

/-- Total wrapper of `stopPlayback` (it always returns normally). -/
def stopTotal (S : PlayerState) : PlayerState :=
  match stopPlayback S with
  | Except.ok s => s
  | Except.error _ => S

/-- Delivery of one queued `ended` event to the handler registered at line 135:
`source.onended = () => { onEnded(); setCurrentTime(0); }`, where the page's
`onEnded` is `() => setIsPlaying(false)`. -/
def deliverEnded (S : PlayerState) : PlayerState :=
  if 0 < S.endedPending then
    let S1 : PlayerState := { S with endedPending := S.endedPending - 1 }
    if S1.handlerRegistered then
      { S1 with endedCalls := S1.endedCalls + 1, currentTime := 0, playingProp := false }
    else S1
  else S

/-- External events driving one player: the `isPlaying` prop edges (play and
stop commands), a scheduled animation frame firing at clock instant `t`, the
source node reaching the end of its buffer, and the asynchronous delivery of
a queued `ended` event. -/
inductive Event where
  | play : ℚ → Event
  | stopCmd : Event
  | frame : ℚ → Event
  | naturalEnd : Event
  | deliverEnd : Event
  deriving DecidableEq

/-- One step of the player machine. -/
def step (S : PlayerState) (e : Event) : PlayerState :=
  match e with
  | Event.play t => startPlayback t { S with playingProp := true }
  | Event.stopCmd => stopTotal { S with playingProp := false }
  | Event.frame t =>
      if S.animScheduled then drawLiveWaveform t { S with animScheduled := false } else S
  | Event.naturalEnd =>
      if S.sourceLive then
        { S with sourceLive := false, endedPending := S.endedPending + 1 }
      else S
  | Event.deliverEnd => deliverEnded S

/-- Run a sequence of events. -/
def run (S : PlayerState) (es : List Event) : PlayerState := es.foldl step S

/-- State of a freshly mounted player after a successful decode of a buffer
of duration `dur`: canvas, context and buffer present, static waveform drawn
once, no playback session yet. -/
def initState (dur : ℚ) : PlayerState :=
  { canvasSet := true, ctxSet := true, bufferSet := true, analyserSet := false,
    sourceRefSet := false, sourceLive := false, handlerRegistered := false,
    endedPending := 0, animScheduled := false, playingProp := false,
    startTime := 0, currentTime := 0, duration := dur,
    endedCalls := 0, liveDraws := 0, staticDraws := 1 }

end WaveformPlayer

namespace WaveformPlayer

/-- The peak-loop accumulator never decreases below its initial value. -/
lemma foldl_peak_init_le (data : ChannelData) (l : List ℕ) (m : ℚ) :
    m ≤ l.foldl (fun m j => if |data.getD j 0| > m then |data.getD j 0| else m) m := by
  induction l generalizing m with
  | nil => exact le_refl m
  | cons a as ih =>
      simp only [List.foldl_cons]
      refine le_trans ?_ (ih (if |data.getD a 0| > m then |data.getD a 0| else m))
      split_ifs with h
      · exact le_of_lt h
      · exact le_refl m

/-- The peak loop dominates every visited sample's absolute amplitude. -/
lemma foldl_peak_mem_le (data : ChannelData) (l : List ℕ) :
    ∀ (m : ℚ) (j : ℕ), j ∈ l →
      |data.getD j 0| ≤ l.foldl (fun m j => if |data.getD j 0| > m then |data.getD j 0| else m) m := by
  induction l with
  | nil =>
      intro m j hj
      cases hj
  | cons a as ih =>
      intro m j hj
      simp only [List.foldl_cons]
      rcases List.mem_cons.mp hj with h | h
      · subst h
        refine le_trans ?_ (foldl_peak_init_le data as _)
        split_ifs with h'
        · exact le_refl _
        · exact le_of_not_lt h'
      · exact ih _ j h

/-- The peak loop returns its initial value or one of the visited amplitudes. -/
lemma foldl_peak_eq_or (data : ChannelData) (l : List ℕ) :
    ∀ m : ℚ,
      l.foldl (fun m j => if |data.getD j 0| > m then |data.getD j 0| else m) m = m ∨
      ∃ j ∈ l,
        l.foldl (fun m j => if |data.getD j 0| > m then |data.getD j 0| else m) m = |data.getD j 0| := by
  induction l with
  | nil =>
      intro m
      exact Or.inl rfl
  | cons a as ih =>
      intro m
      simp only [List.foldl_cons]
      rcases ih (if |data.getD a 0| > m then |data.getD a 0| else m) with h | ⟨j, hj, hja⟩
      · by_cases hc : |data.getD a 0| > m
        · refine Or.inr ⟨a, List.mem_cons_self a as, ?_⟩
          rw [h, if_pos hc]
        · refine Or.inl ?_
          rw [h, if_neg hc]
      · exact Or.inr ⟨j, List.mem_cons_of_mem a hj, hja⟩

/-- Membership in the index range the peak loop visits. -/
lemma mem_peak_range (s e j : ℕ) : j ∈ List.range' s (e - s) ↔ s ≤ j ∧ j < e := by
  rw [List.mem_range'_1]
  omega

/-- In an all-zero buffer every lookup (in range or defaulted) is zero. -/
lemma getD_zero_of_all_zero (data : ChannelData) (hz : ∀ x ∈ data, x = 0) (j : ℕ) :
    data.getD j 0 = 0 := by
  rcases Nat.lt_or_ge j data.length with h | h
  · rw [List.getD_eq_getElem data 0 h]
    exact hz _ (List.getElem_mem h)
  · exact List.getD_eq_default data 0 h

end WaveformPlayer

namespace WaveformPlayer

/-- Claim C5: for every decoded buffer and bar index, the bar's sample value
computed by the peak loop equals the maximum absolute amplitude over the
half-open range from `floor(i/barCount * N)` to `floor((i+1)/barCount * N)`
(it dominates every amplitude in the range and is attained there unless the
range is empty or silent, in which case it is 0), the drawn bar height is
`max 2 (peak * height * 0.8)`, an all-zero buffer yields bars of exactly the
floor height 2, and no bar ever has height below 2. -/
theorem static_bar_computes_range_peak (data : ChannelData) (width height : ℚ) (i : ℕ) :
    (∀ j, rangeStart width data.length i ≤ j → j < rangeStart width data.length (i + 1) →
      |data.getD j 0| ≤
        maxAbsRange data (rangeStart width data.length i) (rangeStart width data.length (i + 1))) ∧
    (maxAbsRange data (rangeStart width data.length i) (rangeStart width data.length (i + 1)) = 0 ∨
      ∃ j, rangeStart width data.length i ≤ j ∧ j < rangeStart width data.length (i + 1) ∧
        maxAbsRange data (rangeStart width data.length i) (rangeStart width data.length (i + 1)) =
          |data.getD j 0|) ∧
    (staticBar data width height i).h =
      max 2 (maxAbsRange data (rangeStart width data.length i)
        (rangeStart width data.length (i + 1)) * height * (4 / 5)) ∧
    ((∀ x ∈ data, x = 0) → (staticBar data width height i).h = 2) ∧
    2 ≤ (staticBar data width height i).h := by
  refine ⟨?_, ?_, rfl, ?_, le_max_left 2 _⟩
  · intro j h1 h2
    exact foldl_peak_mem_le data _ 0 j ((mem_peak_range _ _ j).mpr ⟨h1, h2⟩)
  · rcases foldl_peak_eq_or data
        (List.range' (rangeStart width data.length i)
          (rangeStart width data.length (i + 1) - rangeStart width data.length i)) 0 with
      h | ⟨j, hj, hja⟩
    · exact Or.inl h
    · rcases (mem_peak_range _ _ j).mp hj with ⟨h1, h2⟩
      exact Or.inr ⟨j, h1, h2, hja⟩
  · intro hz
    have hpk : maxAbsRange data (rangeStart width data.length i)
        (rangeStart width data.length (i + 1)) = 0 := by
      rcases foldl_peak_eq_or data
          (List.range' (rangeStart width data.length i)
            (rangeStart width data.length (i + 1) - rangeStart width data.length i)) 0 with
        h | ⟨j, _, hja⟩
      · exact h
      · rw [maxAbsRange, hja, getD_zero_of_all_zero data hz j, abs_zero]
    show max 2 (maxAbsRange data (rangeStart width data.length i)
        (rangeStart width data.length (i + 1)) * height * (4 / 5)) = 2
    rw [hpk, zero_mul, zero_mul]
    exact max_eq_left (le_refl 0 |>.trans (by norm_num))

/-- Claim C5 witness: an all-zero three-sample buffer yields a first bar of
exactly the floor height 2. -/
theorem static_bar_computes_range_peak_witness :
    (staticBar [(0 : ℚ), 0, 0] 7 10 0).h = 2 :=
  (static_bar_computes_range_peak [(0 : ℚ), 0, 0] 7 10 0).2.2.2.1 (by
    intro x hx
    simp only [List.mem_cons, List.not_mem_nil, or_false] at hx
    rcases hx with h | h | h <;> exact h)

/-- Claim C6: for every channel buffer and geometry, the static draw produces
exactly `floor(width / (barWidth + gap))` bars (and, being a total function,
it cannot throw). -/
theorem static_draw_bar_count (data : ChannelData) (width height : ℚ) :
    (drawStaticWaveform data width height).length = (⌊width / (barWidth + gap)⌋).toNat := by
  simp [drawStaticWaveform, barCount, totalBarWidth]

end WaveformPlayer

namespace WaveformPlayer

/-- Claim C7: during a live draw, progress is `elapsed / duration` when the
duration is positive and `0` when the duration is `0` (the conditional guard,
so no division error), and a bar is drawn in the played accent color exactly
when its fractional position `i / barCount` is at most the progress; the
boundary bar whose fraction equals `elapsed / duration` is played. -/
theorem live_progress_and_coloring (D E width height : ℚ) (data : ChannelData) (i : ℕ) :
    progressOf 0 E = 0 ∧
    (0 < D → progressOf D E = E / D) ∧
    ((liveColoredBar data width height (progressOf D E) i).color = playedColor ↔
      (i : ℚ) / (barCount width : ℚ) ≤ progressOf D E) ∧
    (0 < D → (i : ℚ) / (barCount width : ℚ) = E / D →
      (liveColoredBar data width height (progressOf D E) i).color = playedColor) := by
  have hne : neutralColor ≠ playedColor := by decide
  refine ⟨by simp [progressOf], fun h => by simp [progressOf, h], ?_, ?_⟩
  · simp only [liveColoredBar]
    split_ifs with h
    · simp [h]
    · simp [h, hne]
  · intro hD heq
    simp [liveColoredBar, progressOf, hD, heq]

/-- Claim C7 witness: with duration 2 and elapsed 1 the computed progress is
one half. -/
theorem live_progress_and_coloring_witness : progressOf 2 1 = 1 / 2 :=
  (live_progress_and_coloring 2 1 7 10 [] 0).2.1 (by norm_num)

/-- Claim C10: for the same channel data and surface geometry the live
renderer computes exactly the same bar geometry, bar for bar, as the static
renderer; the static pass colors every bar in the single neutral color, so the
two passes differ only in fill color, plus the additional playhead drawn at
`x = progress * width - 1` with width 2 and full surface height. -/
theorem live_bars_refine_static (data : ChannelData) (width height D E : ℚ) :
    (liveBars data width height D E).map ColoredBar.bar =
      (drawStaticWaveform data width height).map ColoredBar.bar ∧
    (drawStaticWaveform data width height).map ColoredBar.color =
      List.replicate (barCount width) neutralColor ∧
    playheadBar width height (progressOf D E) =
      { x := progressOf D E * width - 1, y := 0, w := 2, h := height } := by
  refine ⟨?_, ?_, rfl⟩
  · rw [liveBars, drawStaticWaveform, List.map_map, List.map_map]
    rfl
  · rw [drawStaticWaveform, List.map_map]
    rw [List.eq_replicate_iff]
    constructor
    · simp
    · intro c hc
      simp only [List.mem_map, List.mem_range, Function.comp] at hc
      rcases hc with ⟨a, _, rfl⟩
      rfl

end WaveformPlayer

namespace WaveformPlayer

/-- Claim C9: for every non-negative number of seconds, `formatTime` renders
`floor(q / 60)` minutes (unbounded, no hour rollover), a colon, then the
mathematical `floor(q mod 60)` seconds zero-padded to two digits (the seconds
value always lies in `[0, 60)`); in particular `formatTime 0 = "0:00"`,
`formatTime 65 = "1:05"`, `formatTime 599 = "9:59"` and
`formatTime 600 = "10:00"`. -/
theorem formatTime_minutes_seconds (q : ℚ) (hq : 0 ≤ q) :
    formatTime q =
      toString ⌊q / 60⌋ ++ ":" ++ padStart (toString ⌊q - 60 * (⌊q / 60⌋ : ℚ)⌋) 2 '0' ∧
    0 ≤ ⌊q - 60 * (⌊q / 60⌋ : ℚ)⌋ ∧ ⌊q - 60 * (⌊q / 60⌋ : ℚ)⌋ < 60 ∧
    formatTime 0 = "0:00" ∧ formatTime 65 = "1:05" ∧
    formatTime 599 = "9:59" ∧ formatTime 600 = "10:00" := by
  have hdiv : (0 : ℚ) ≤ q / 60 := by positivity
  have htr : jsTrunc (q / 60) = ⌊q / 60⌋ := if_pos hdiv
  have hrem : jsRem q 60 = q - 60 * (⌊q / 60⌋ : ℚ) := by
    rw [jsRem, htr]
  have hlow : (0 : ℚ) ≤ q - 60 * (⌊q / 60⌋ : ℚ) := by
    have h := Int.sub_floor_div_mul_nonneg q (show (0 : ℚ) < 60 by norm_num)
    linarith
  have hhi : q - 60 * (⌊q / 60⌋ : ℚ) < 60 := by
    have h := Int.sub_floor_div_mul_lt q (show (0 : ℚ) < 60 by norm_num)
    linarith
  refine ⟨?_, Int.floor_nonneg.mpr hlow, ?_, ?_, ?_, ?_, ?_⟩
  · simp only [formatTime]
    rw [hrem]
  · exact_mod_cast Int.floor_lt.mpr (by exact_mod_cast hhi)
  · have h1 : ⌊(0 : ℚ) / 60⌋ = 0 := by norm_num
    have h2 : ⌊jsRem 0 60⌋ = 0 := by norm_num [jsRem, jsTrunc]
    simp only [formatTime, h1, h2]
    rfl
  · have h1 : ⌊(65 : ℚ) / 60⌋ = 1 := by norm_num
    have h2 : ⌊jsRem 65 60⌋ = 5 := by norm_num [jsRem, jsTrunc]
    simp only [formatTime, h1, h2]
    rfl
  · have h1 : ⌊(599 : ℚ) / 60⌋ = 9 := by norm_num
    have h2 : ⌊jsRem 599 60⌋ = 59 := by norm_num [jsRem, jsTrunc]
    simp only [formatTime, h1, h2]
    rfl
  · have h1 : ⌊(600 : ℚ) / 60⌋ = 10 := by norm_num
    have h2 : ⌊jsRem 600 60⌋ = 0 := by norm_num [jsRem, jsTrunc]
    simp only [formatTime, h1, h2]
    rfl

/-- Claim C9 witness: the general rendering formula applied at 65 seconds. -/
theorem formatTime_minutes_seconds_witness :
    formatTime 65 =
      toString ⌊(65 : ℚ) / 60⌋ ++ ":" ++
        padStart (toString ⌊(65 : ℚ) - 60 * (⌊(65 : ℚ) / 60⌋ : ℚ)⌋) 2 '0' :=
  (formatTime_minutes_seconds 65 (by norm_num)).1

/-- Claim C3 (code bug): the decode chain at lines 47-51 attaches only a
fulfillment handler (`.then` with no `.catch` anywhere), so when
`decodeAudioData` rejects - as it does for any payload that is not valid
encoded audio, including the empty payload - the rejection passes through
the derived promise unhandled: the fulfillment handler never runs and the
`DecodeError` escapes the component boundary as an unhandled rejection
instead of being surfaced as a handled non-fatal failure. -/
theorem decode_failure_escapes_unhandled :
    decodeEffect (Promise.rejected DecodeError.invalidData) =
      Promise.rejected DecodeError.invalidData ∧
    unhandledRejection (decodeEffect (Promise.rejected DecodeError.invalidData)) =
      some DecodeError.invalidData ∧
    ∀ buffer : PCMBuffer,
      decodeEffect (Promise.fulfilled buffer) = Promise.fulfilled (handleDecoded buffer) :=
  ⟨rfl, rfl, fun _ => rfl⟩

end WaveformPlayer

namespace WaveformPlayer

/-- Claim C1 counterexample: the per-frame callback stores the raw difference
`ctx.currentTime - startTimeRef.current` with no clamp, so in a session over a
buffer of duration 1 started at clock 0, a frame firing at clock 10 (after the
source has ended but before the ended-driven stop is processed, the external
`isPlaying` signal still true) reports an elapsed time of 10, exceeding the
duration - refuting the claim that the reported elapsed never exceeds the
decoded buffer's duration while Playing. -/
theorem frame_elapsed_exceeds_duration_cex :
    (run (initState 1) [Event.play 0, Event.naturalEnd, Event.frame 10]).playingProp = true ∧
    (run (initState 1) [Event.play 0, Event.naturalEnd, Event.frame 10]).duration = 1 ∧
    (run (initState 1) [Event.play 0, Event.naturalEnd, Event.frame 10]).currentTime = 10 ∧
    ¬ (run (initState 1) [Event.play 0, Event.naturalEnd, Event.frame 10]).currentTime ≤
        (run (initState 1) [Event.play 0, Event.naturalEnd, Event.frame 10]).duration := by
  simp [run, step, startPlayback, drawLiveWaveform, stopTotal, stopPlayback,
        sourceNodeStop, deliverEnded, initState]

/-- Claim C1 amended: within one playback session (fixed start reference,
refs attached), the elapsed time reported by successive invocations of
`drawLiveWaveform` is non-decreasing whenever the audio clock is
(`t1 <= t2`), and the reported elapsed is at most the duration provided the
frame's clock instant is at most `startTime + duration`; the code performs no
clamping, so frames at later clock instants report values above the duration. -/
theorem frame_elapsed_monotone_and_bounded (S : PlayerState) (t1 t2 : ℚ)
    (hcanvas : S.canvasSet = true) (hana : S.analyserSet = true) (hctx : S.ctxSet = true)
    (h12 : t1 ≤ t2) :
    (drawLiveWaveform t1 S).currentTime ≤
      (drawLiveWaveform t2 (drawLiveWaveform t1 S)).currentTime ∧
    (t1 ≤ S.startTime + S.duration → (drawLiveWaveform t1 S).currentTime ≤ S.duration) := by
  simp only [drawLiveWaveform, hcanvas, hana, hctx, Bool.and_self, if_true]
  constructor
  · simp
    linarith
  · intro h
    simp
    linarith

/-- Claim C1 witness: the amended bound applied to the state right after a
play command at clock 0, with frames at clock instants 1 and 2. -/
theorem frame_elapsed_monotone_and_bounded_witness :
    (drawLiveWaveform 1 (run (initState 1) [Event.play 0])).currentTime ≤
      (drawLiveWaveform 2 (drawLiveWaveform 1 (run (initState 1) [Event.play 0]))).currentTime :=
  (frame_elapsed_monotone_and_bounded (run (initState 1) [Event.play 0]) 1 2
    (by simp [run, step, startPlayback, drawLiveWaveform, initState])
    (by simp [run, step, startPlayback, drawLiveWaveform, initState])
    (by simp [run, step, startPlayback, drawLiveWaveform, initState])
    (by norm_num)).1

/-- Claim C2 counterexample: on a trace with no natural completion - play at
clock 0, then a user stop command, then delivery of the `ended` event that the
platform fires because `stop()` was called on a still-playing source whose
`onended` handler was never detached - `onEnded` is invoked once (and the
reported elapsed is reset to 0), refuting the claim that `onEnded` is not
invoked on a user-initiated pause/stop transition. -/
theorem onEnded_fires_on_user_stop_cex :
    (run (initState 1) [Event.play 0, Event.stopCmd, Event.deliverEnd]).endedCalls = 1 ∧
    (run (initState 1) [Event.play 0, Event.stopCmd, Event.deliverEnd]).currentTime = 0 ∧
    (run (initState 1) [Event.play 0, Event.stopCmd, Event.deliverEnd]).playingProp = false := by
  simp [run, step, startPlayback, drawLiveWaveform, stopTotal, stopPlayback,
        sourceNodeStop, deliverEnded, initState]

/-- Claim C2 amended: `onEnded` is invoked exactly once per delivered `ended`
event of the source, and each invocation resets the reported elapsed to 0.
Natural completion fires the event exactly once (a further delivery attempt
invokes nothing), but a user stop of a still-playing source also fires it
exactly once, because `stop()` triggers the source's `ended` event and
`stopPlayback` does not detach the handler before stopping. -/
theorem onEnded_once_per_ended_event (S : PlayerState)
    (hlive : S.sourceLive = true) (hreg : S.handlerRegistered = true)
    (hpend : S.endedPending = 0) (hsrc : S.sourceRefSet = true) (hbuf : S.bufferSet = true) :
    ((run S [Event.naturalEnd, Event.deliverEnd]).endedCalls = S.endedCalls + 1 ∧
      (run S [Event.naturalEnd, Event.deliverEnd]).currentTime = 0 ∧
      (run S [Event.naturalEnd, Event.deliverEnd, Event.deliverEnd]).endedCalls =
        S.endedCalls + 1) ∧
    ((run S [Event.stopCmd, Event.deliverEnd]).endedCalls = S.endedCalls + 1 ∧
      (run S [Event.stopCmd, Event.deliverEnd]).currentTime = 0 ∧
      (run S [Event.stopCmd, Event.deliverEnd, Event.deliverEnd]).endedCalls =
        S.endedCalls + 1) := by
  simp [run, step, deliverEnded, stopTotal, stopPlayback, sourceNodeStop,
        hlive, hreg, hpend, hsrc, hbuf]

/-- Claim C2 witness: natural completion from the state right after a play
command invokes `onEnded` exactly once. -/
theorem onEnded_once_per_ended_event_witness :
    (run (run (initState 1) [Event.play 0]) [Event.naturalEnd, Event.deliverEnd]).endedCalls =
      (run (initState 1) [Event.play 0]).endedCalls + 1 :=
  ((onEnded_once_per_ended_event (run (initState 1) [Event.play 0])
    (by simp [run, step, startPlayback, drawLiveWaveform, initState])
    (by simp [run, step, startPlayback, drawLiveWaveform, initState])
    (by simp [run, step, startPlayback, drawLiveWaveform, initState])
    (by simp [run, step, startPlayback, drawLiveWaveform, initState])
    (by simp [run, step, startPlayback, drawLiveWaveform, initState])).1).1

/-- Claim C4 counterexample: after play at clock 0 followed by a stop command
the machine is Idle (`isPlaying` false, no frame scheduled), but the canvas,
analyser and context refs all remain set, so an invocation of
`drawLiveWaveform` at clock 5 passes the guard: it changes the reported
elapsed from 0 to 5, performs a draw pass, and schedules a further frame -
refuting the claim that a stray frame invocation in the Idle state is a no-op. -/
theorem stray_frame_after_stop_not_noop_cex :
    (run (initState 1) [Event.play 0, Event.stopCmd]).playingProp = false ∧
    (run (initState 1) [Event.play 0, Event.stopCmd]).animScheduled = false ∧
    (run (initState 1) [Event.play 0, Event.stopCmd]).currentTime = 0 ∧
    (drawLiveWaveform 5 (run (initState 1) [Event.play 0, Event.stopCmd])).currentTime = 5 ∧
    (drawLiveWaveform 5 (run (initState 1) [Event.play 0, Event.stopCmd])).liveDraws =
      (run (initState 1) [Event.play 0, Event.stopCmd]).liveDraws + 1 ∧
    (drawLiveWaveform 5 (run (initState 1) [Event.play 0, Event.stopCmd])).animScheduled = true := by
  simp [run, step, startPlayback, drawLiveWaveform, stopTotal, stopPlayback,
        sourceNodeStop, deliverEnded, initState]

/-- Claim C4 amended: an invocation of `drawLiveWaveform` is a no-op (no state
change, no draw, no further frame scheduled) exactly in the cases its guard
covers - when the canvas, analyser or audio-context reference is absent, as
before any first playback; after a stop these refs remain set, and the code
instead prevents stray frames solely through `cancelAnimationFrame` in
`stopPlayback` and the unmount cleanup. -/
theorem stray_frame_noop_when_refs_missing (S : PlayerState) (t : ℚ)
    (h : S.canvasSet = false ∨ S.analyserSet = false ∨ S.ctxSet = false) :
    drawLiveWaveform t S = S := by
  rcases h with h | h | h <;> simp [drawLiveWaveform, h]

/-- Claim C4 witness: before any playback the analyser ref is absent, so a
stray frame at clock 3 leaves the freshly mounted state unchanged. -/
theorem stray_frame_noop_when_refs_missing_witness :
    drawLiveWaveform 3 (initState 1) = initState 1 :=
  stray_frame_noop_when_refs_missing (initState 1) 3 (Or.inr (Or.inl rfl))

/-- Claim C8: `stopPlayback` never raises: called twice in a row from any
state it returns normally both times, and in the tolerated case - a source
ref still set whose underlying node has already finished (naturally or by the
first stop) - the platform `stop()` call does throw, and the surrounding
try/catch swallows it. -/
theorem stop_twice_never_errors (S : PlayerState) :
    (∃ S1 S2, stopPlayback S = Except.ok S1 ∧ stopPlayback S1 = Except.ok S2) ∧
    (S.sourceLive = false → sourceNodeStop S = Except.error JSError.invalidState) := by
  constructor
  · exact ⟨_, _, rfl, rfl⟩
  · intro h
    simp [sourceNodeStop, h]

/-- Claim C8 witness: on the freshly mounted state (no live source) the
platform stop call errors, while `stopPlayback` still returns normally. -/
theorem stop_twice_never_errors_witness :
    sourceNodeStop (initState 1) = Except.error JSError.invalidState :=
  (stop_twice_never_errors (initState 1)).2 rfl

end WaveformPlayer
